import Mathlib

/-!
Shallow embedding of the workerpool package (`workerpool.go`) and proofs of
spec-level properties about it.

The embedding follows the Go source:
* user functions (`func() error`) are modelled by the outcome they return,
  with `none` standing for Go's nil function pointer;
* Go contexts are modelled by a small inductive (`nilCtx` for a nil
  `context.Context`, `background` for `context.Background()`, and derived
  deadline contexts); `context.WithTimeout` panics on a nil parent, which the
  embedding records by returning `Except.error`;
* channels carrying results are modelled as a buffer list plus a closed flag;
* the dispatcher's select-with-default sends are modelled by a boolean input
  saying whether a worker was ready to receive at that instant.
-/

namespace Workerpool

/-- A Go `error` value: `none` is nil, `GoErr.timeout` is the package's
`ErrTimeout`, `GoErr.user n` an arbitrary user error. -/
inductive GoErr where
  | timeout : GoErr
  | user : Nat → GoErr
deriving DecidableEq, Repr

/-- The value a user function returns (`error`, possibly nil). -/
abbrev FnResult := Option GoErr

/-- A user function `func() error`, modelled by the outcome it returns;
`none` models Go's nil function. -/
abbrev Fn := Option FnResult

/-- A `context.Context` value: Go's nil interface, `context.Background()`,
or a deadline-bounded context derived by `context.WithTimeout`. -/
inductive Ctx where
  | nilCtx : Ctx
  | background : Ctx
  | withDeadline : Ctx → Nat → Ctx
deriving DecidableEq, Repr

/-- `context.WithTimeout(parent, d)`: derives a deadline context, or panics
(modelled as `none`) when the parent context is nil. -/
def Ctx.withTimeout : Ctx → Nat → Option Ctx
  | Ctx.nilCtx, _ => none
  | c, d => some (Ctx.withDeadline c d)

/-- A channel of `error` values: buffered contents plus whether it has been
closed. The task result channel always has capacity 1. -/
structure Chan where
  buf : List FnResult := []
  closed : Bool := false
deriving DecidableEq, Repr

/-- `poolTask` (workerpool.go lines 256-262). `task` is the user function
(`none` = nil, the kill pill); `Err` the capacity-1 result channel;
`hasDone` whether the `done` channel was allocated; `hasCancel` whether a
`context.CancelFunc` is attached. -/
structure PoolTask where
  task : Fn
  Err : Chan
  hasDone : Bool
  ctx : Ctx
  hasCancel : Bool
deriving DecidableEq, Repr

/-- Whether a variadic `timeout ...time.Duration` argument list starts with a
positive duration — the guard `len(timeout) > 0 && timeout[0] > 0` of
`NewTask` (line 270). -/
def hasPositiveTimeout : List Nat → Bool
  | [] => false
  | t :: _ => decide (0 < t)

/-- `NewTask(ctx, fn, timeout...)` (lines 264-282). When a positive timeout is
given it derives a deadline context (panicking, i.e. `Except.error`, when
`ctx` is nil) and allocates `done` and `cancel`; otherwise `done` and
`cancel` are absent. `Err` is always a fresh empty capacity-1 channel. -/
def NewTask (ctx : Ctx) (fn : Fn) (timeout : List Nat) : Except String PoolTask :=
  match timeout with
  | t :: _ =>
    if 0 < t then
      match ctx.withTimeout t with
      | none => Except.error "panic: cannot create context from nil parent"
      | some ctx2 =>
        Except.ok { task := fn, Err := {}, hasDone := true, ctx := ctx2, hasCancel := true }
    else
      Except.ok { task := fn, Err := {}, hasDone := false, ctx := ctx, hasCancel := false }
  | [] =>
    Except.ok { task := fn, Err := {}, hasDone := false, ctx := ctx, hasCancel := false }

/-- The kill pill `NewTask(nil, nil)` (lines 248 and 372). -/
def killPillTask : PoolTask :=
  { task := none, Err := {}, hasDone := false, ctx := Ctx.nilCtx, hasCancel := false }

/-- The worker's loop guard (line 307): the worker keeps running exactly while
the task it holds has a non-nil `fn`. -/
def workerContinues (t : PoolTask) : Bool := t.task.isSome

/-- Whether the worker hands the task to its helper goroutine: this happens
exactly on the `task.cancel != nil` branch of a running iteration
(lines 307-312). -/
def workerSendsToHelper (t : PoolTask) : Bool := t.task.isSome && t.hasCancel

/-! ## Pool façade: Submit and SubmitWait (lines 111-132) -/

/-- What `Submit` (lines 111-122) does, as observed from outside: the task it
sends on `taskQueue` (if any) and the channel it returns. Task construction
can panic (nil ctx with positive timeout), hence `Except`. -/
structure SubmitEffect where
  sentTask : Option PoolTask
  returned : Chan
deriving DecidableEq, Repr

/-- `Submit(ctx, fn, timeout)` (lines 111-122): with non-nil `fn`, build a
task via `NewTask`, send it on `taskQueue` and return its `Err` channel;
with nil `fn`, touch nothing and return a fresh closed empty channel. -/
def Submit (ctx : Ctx) (fn : Fn) (timeout : Nat) : Except String SubmitEffect :=
  match fn with
  | some f =>
    match NewTask ctx (some f) [timeout] with
    | Except.ok t => Except.ok { sentTask := some t, returned := t.Err }
    | Except.error e => Except.error e
  | none => Except.ok { sentTask := none, returned := { buf := [], closed := true } }

/-- How `SubmitWait` returns: immediately with a value, or by blocking on the
submitted task's `Err` channel. -/
inductive SubmitWaitRet where
  | immediate : FnResult → SubmitWaitRet
  | awaitsResult : PoolTask → SubmitWaitRet
deriving DecidableEq, Repr

/-- `SubmitWait(ctx, fn, timeout)` (lines 125-132): nil `fn` returns nil at
once without building or sending anything; otherwise it sends the new task
and blocks reading its `Err` channel. The first component is the task sent
on `taskQueue`, if any. -/
def SubmitWait (ctx : Ctx) (fn : Fn) (timeout : Nat) :
    Except String (Option PoolTask × SubmitWaitRet) :=
  match fn with
  | none => Except.ok (none, SubmitWaitRet.immediate none)
  | some f =>
    match NewTask ctx (some f) [timeout] with
    | Except.ok t => Except.ok (some t, SubmitWaitRet.awaitsResult t)
    | Except.error e => Except.error e

/-! ## Dispatcher state and direct mode (lines 184-239) -/

/-- The dispatcher-owned state: `workerCount` (atomic counter), the waiting
queue (front of the list = front of the deque), its atomic length mirror
`waiting`, and the `idle` flag of the dispatch loop. -/
structure DispatchState where
  maxWorkers : Nat
  workerCount : Nat
  waitingQueue : List PoolTask
  waiting : Nat
  idle : Bool
deriving DecidableEq, Repr

/-- What the dispatcher did with an arriving task in direct mode. -/
inductive DispatchAction where
  | handedToWorker : PoolTask → DispatchAction
  | spawnedWorker : PoolTask → DispatchAction
  | enqueued : PoolTask → DispatchAction
deriving DecidableEq, Repr

/-- Direct-mode handling of a task received from `taskQueue`
(lines 211-227). `workerReady` is whether the non-blocking
`select { case workerQueue <- task: ... default: ... }` send succeeds, i.e.
whether some worker was blocked receiving on `workerQueue` at that instant.
On failure a new worker is spawned if below `maxWorkers`, else the task is
pushed to the back of the waiting queue and the atomic mirror updated.
`idle` is reset in every case (line 227). -/
def dispatchDirectTask (s : DispatchState) (t : PoolTask) (workerReady : Bool) :
    DispatchState × DispatchAction :=
  if workerReady then
    ({ s with idle := false }, DispatchAction.handedToWorker t)
  else if s.workerCount < s.maxWorkers then
    ({ s with workerCount := s.workerCount + 1, idle := false },
      DispatchAction.spawnedWorker t)
  else
    ({ s with waitingQueue := s.waitingQueue ++ [t],
              waiting := (s.waitingQueue ++ [t]).length,
              idle := false },
      DispatchAction.enqueued t)

/-- `killIdleWorker` (lines 370-379): non-blocking send of the kill pill
`NewTask(nil, nil)`; returns whether the send succeeded, which is exactly
whether a worker was ready to receive. -/
def killIdleWorker (workerReady : Bool) : Bool := workerReady

/-- Result of an idle-timer tick: the new dispatcher state, whether a kill
pill was sent, and whether the timer was re-armed (`timeout.Reset`). -/
structure TickResult where
  state : DispatchState
  pillSent : Bool
  timerRearmed : Bool
deriving DecidableEq, Repr

/-- Direct-mode idle-timer tick (lines 228-237): if the pool was idle over the
whole previous interval and at least one worker is alive, try
`killIdleWorker` and decrement `workerCount` exactly when it reports the
pill was accepted; in every case set `idle := true` and re-arm the timer. -/
def dispatchIdleTick (s : DispatchState) (workerReady : Bool) : TickResult :=
  if s.idle && decide (0 < s.workerCount) then
    if killIdleWorker workerReady then
      { state := { s with workerCount := s.workerCount - 1, idle := true },
        pillSent := true, timerRearmed := true }
    else
      { state := { s with idle := true }, pillSent := false, timerRearmed := true }
  else
    { state := { s with idle := true }, pillSent := false, timerRearmed := true }

/-! ## Queued mode (lines 199-204 and 355-368) -/

/-- The event resolved by the `select` of `processWaitingQueue`
(lines 356-365): either a task arrives on `taskQueue`, or a worker becomes
ready and the front of the waiting queue is handed over. -/
inductive QueueOp where
  | arrive : PoolTask → QueueOp
  | handoff : QueueOp
deriving DecidableEq, Repr

/-- One call of `processWaitingQueue` (lines 355-368), which the dispatch
loop only makes while the waiting queue is non-empty: an arriving task is
pushed to the back; a handoff sends `Front()` to `workerQueue` and pops it.
`Front` on an empty deque panics, modelled as `none`. Returns the new queue
and the task handed to a worker, if any. -/
def processWaitingQueue (q : List PoolTask) (op : QueueOp) :
    Option (List PoolTask × Option PoolTask) :=
  match op with
  | QueueOp.arrive t => some (q ++ [t], none)
  | QueueOp.handoff =>
    match q with
    | [] => none
    | h :: rest => some (rest, some h)

/-- Iterated queued-mode operation: runs `processWaitingQueue` over a list of
resolved select events, collecting the tasks handed to workers in order.
Returns `none` if a handoff ever hits an empty queue (unreachable under the
dispatch loop's `Len() != 0` guard). -/
def runQueueOps (q : List PoolTask) : List QueueOp → Option (List PoolTask × List PoolTask)
  | [] => some (q, [])
  | op :: ops =>
    match processWaitingQueue q op with
    | none => none
    | some (q2, handed) =>
      match runQueueOps q2 ops with
      | none => none
      | some (qf, rest) => some (qf, handed.toList ++ rest)

/-- The tasks that arrive on `taskQueue` during a sequence of queued-mode
events, in order. -/
def arrivals : List QueueOp → List PoolTask
  | [] => []
  | QueueOp.arrive t :: ops => t :: arrivals ops
  | QueueOp.handoff :: ops => arrivals ops

/-! ## Shutdown (lines 241-254 and 383-389) -/

/-- The externally observable actions of the dispatcher's shutdown path. -/
inductive ShutdownEvent where
  | handedQueuedTask : PoolTask → ShutdownEvent
  | sentKillPill : ShutdownEvent
  | decrementedWorkerCount : ShutdownEvent
  | waitedForWorkers : ShutdownEvent
  | stoppedTimer : ShutdownEvent
  | closedStoppedChan : ShutdownEvent
deriving DecidableEq, Repr

/-- `runQueuedTasks` (lines 383-389): while the waiting queue is non-empty,
send `PopFront()` to `workerQueue`; emits one handoff event per task, front
first. -/
def runQueuedTasks : List PoolTask → List ShutdownEvent
  | [] => []
  | t :: rest => ShutdownEvent.handedQueuedTask t :: runQueuedTasks rest

/-- The kill loop (lines 247-250): while `workerCount > 0`, send a kill pill
on `workerQueue` and decrement `workerCount` once the send is accepted. -/
def killRemainingWorkers : Nat → List ShutdownEvent
  | 0 => []
  | n + 1 =>
    ShutdownEvent.sentKillPill :: ShutdownEvent.decrementedWorkerCount ::
      killRemainingWorkers n

/-- The dispatcher's shutdown sequence after `taskQueue` is observed closed
(`break Loop`, lines 241-254, plus the deferred `close(p.stoppedChan)` of
line 185 which runs last of all): drain the waiting queue if `wait` is set,
kill every remaining worker, `wg.Wait()`, stop the timer, and only then
close `stoppedChan`. -/
def shutdownTrace (wait : Bool) (queue : List PoolTask) (workerCount : Nat) :
    List ShutdownEvent :=
  (if wait then runQueuedTasks queue else []) ++
    killRemainingWorkers workerCount ++
    [ShutdownEvent.waitedForWorkers, ShutdownEvent.stoppedTimer,
     ShutdownEvent.closedStoppedChan]

/-! ## The worker loop over its stream of tasks (lines 287-329) -/

/-- How a worker's run over a finite stream of incoming tasks ends: it exited
the loop (received a nil-fn kill pill, line 307 guard fails, `wg.Done()`),
or it is blocked on `task = <-workerQueue` awaiting more work. -/
inductive WorkerEnd where
  | exited : WorkerEnd
  | blockedAwaitingTask : WorkerEnd
deriving DecidableEq, Repr

/-- The worker loop (lines 307-327) viewed at the granularity of held tasks:
starting from the initial task, each non-nil-fn task is executed and the
worker then takes the next task from `workerQueue`; a nil-fn task exits the
loop. The body of an iteration is abstracted to running to completion here;
the timed branch's internal behaviour is modelled separately below. Returns
the tasks the worker executed and how the run ended. -/
def workerRun (t : PoolTask) : List PoolTask → List PoolTask × WorkerEnd
  | [] =>
    match t.task with
    | none => ([], WorkerEnd.exited)
    | some _ => ([t], WorkerEnd.blockedAwaitingTask)
  | t2 :: rest =>
    match t.task with
    | none => ([], WorkerEnd.exited)
    | some _ =>
      match workerRun t2 rest with
      | (ex, e) => (t :: ex, e)

/-! ## Small-step model of one timed task (lines 287-329)

For a task with `cancel != nil` the worker (lines 311-325) races its helper
goroutine (lines 293-305) against the deadline context. The two goroutines,
the deadline timer and the submitter's read of the result channel interleave;
the model below is a step relation whose constructors are the individual
channel operations of the source, with Go's `select` semantics: a case may
fire only while it is ready, `default` only while no case is. -/

namespace TimedTask

/-- Worker control points inside the `task.cancel != nil` branch. -/
inductive WPc where
  | sendTasks : WPc            -- line 312: `tasks <- task`
  | raceSelect : WPc           -- lines 316-321: select done / ctx.Done
  | recvErrCh : WPc            -- line 318: `err = <-errCh`
  | publish : FnResult → WPc   -- line 323: `task.Err <- err`
  | callCancel : WPc           -- line 324: `task.cancel()`
  | awaitNext : WPc            -- line 325: `task = <-workerQueue`
deriving DecidableEq, Repr

/-- Helper-goroutine control points (lines 293-305). -/
inductive HPc where
  | recvTask : HPc   -- line 294: `for execTask := range tasks`
  | runFn : HPc      -- line 295: `err := execTask.task()`
  | sel : HPc        -- lines 297-301: select ctx.Done / Err send / default
  | closeDone : HPc  -- line 303: `close(execTask.done)`
deriving DecidableEq, Repr

/-- Joint state of the worker, its helper, the channels and the environment
while one timed task is processed. `errBuf` is the task's capacity-1 `Err`
channel, `errSends` counts every value ever sent on it, `errChBuf` is the
worker-local capacity-1 `errCh` of line 288, `tasksBuf` the occupancy of
the capacity-1 `tasks` channel of line 289, and `ctxDone` whether the
deadline has expired. `fnOut` is the value the user function returns. -/
structure WState where
  wpc : WPc
  hpc : HPc
  fnOut : FnResult
  errBuf : List FnResult
  errSends : Nat
  errChBuf : List FnResult
  doneClosed : Bool
  ctxDone : Bool
  tasksBuf : Nat
  cancelCalls : Nat
deriving DecidableEq, Repr

/-- One interleaved step of the worker / helper / timer / submitter system.
Each constructor is one channel operation of the source; its hypotheses are
the Go readiness conditions of that operation. No constructor ever appends
to `errChBuf`: no statement in the source sends on `errCh`. -/
inductive Step : WState → WState → Prop where
  /-- Line 312: the worker sends the task into the capacity-1 `tasks`. -/
  | wSendTasks (s : WState) (h : s.wpc = WPc.sendTasks) (hb : s.tasksBuf = 0) :
      Step s { s with wpc := WPc.raceSelect, tasksBuf := 1 }
  /-- Lines 316-318: `done` is closed, so the race select takes the `done`
  branch and the worker moves to `err = <-errCh`. -/
  | wRaceDone (s : WState) (h : s.wpc = WPc.raceSelect) (hd : s.doneClosed = true) :
      Step s { s with wpc := WPc.recvErrCh }
  /-- Lines 319-320: the deadline fired, so the race select takes the
  `ctx.Done()` branch and the worker will publish `ErrTimeout`. -/
  | wRaceCtx (s : WState) (h : s.wpc = WPc.raceSelect) (hc : s.ctxDone = true) :
      Step s { s with wpc := WPc.publish (some GoErr.timeout) }
  /-- Line 318: receiving from `errCh` requires a buffered value. -/
  | wRecvErrCh (s : WState) (e : FnResult) (rest : List FnResult)
      (h : s.wpc = WPc.recvErrCh) (hb : s.errChBuf = e :: rest) :
      Step s { s with wpc := WPc.publish e, errChBuf := rest }
  /-- Line 323: blocking send on `task.Err`, ready while the capacity-1
  buffer is empty. -/
  | wPublish (s : WState) (e : FnResult) (h : s.wpc = WPc.publish e)
      (hb : s.errBuf = []) :
      Step s { s with wpc := WPc.callCancel, errBuf := [e],
                      errSends := s.errSends + 1 }
  /-- Line 324: `task.cancel()`. -/
  | wCancel (s : WState) (h : s.wpc = WPc.callCancel) :
      Step s { s with wpc := WPc.awaitNext, cancelCalls := s.cancelCalls + 1 }
  /-- Line 294: the helper receives the task from `tasks`. -/
  | hRecvTask (s : WState) (h : s.hpc = HPc.recvTask) (hb : s.tasksBuf = 1) :
      Step s { s with hpc := HPc.runFn, tasksBuf := 0 }
  /-- Line 295: the user function returns (at an arbitrary later instant). -/
  | hFnReturns (s : WState) (h : s.hpc = HPc.runFn) :
      Step s { s with hpc := HPc.sel }
  /-- Line 299: the helper's select sends the outcome on `task.Err`; this
  case is ready exactly while the capacity-1 buffer is empty. -/
  | hSelectSend (s : WState) (h : s.hpc = HPc.sel) (hb : s.errBuf = []) :
      Step s { s with hpc := HPc.closeDone, errBuf := [s.fnOut],
                      errSends := s.errSends + 1 }
  /-- Line 298: the helper's select takes the `ctx.Done()` branch, ready
  once the deadline context is cancelled; the outcome is dropped. -/
  | hSelectCtx (s : WState) (h : s.hpc = HPc.sel) (hc : s.ctxDone = true) :
      Step s { s with hpc := HPc.closeDone }
  /-- Line 300: `default`, taken only when neither other case is ready. -/
  | hSelectDefault (s : WState) (h : s.hpc = HPc.sel) (hc : s.ctxDone = false)
      (hb : s.errBuf ≠ []) :
      Step s { s with hpc := HPc.closeDone }
  /-- Line 303: the helper closes the task's `done` channel and loops. -/
  | hCloseDone (s : WState) (h : s.hpc = HPc.closeDone) :
      Step s { s with hpc := HPc.recvTask, doneClosed := true }
  /-- The deadline of the task's context expires. -/
  | timerFires (s : WState) (h : s.ctxDone = false) :
      Step s { s with ctxDone := true }
  /-- The submitter reads one value from the task's `Err` channel. -/
  | submitterRecv (s : WState) (e : FnResult) (rest : List FnResult)
      (hb : s.errBuf = e :: rest) :
      Step s { s with errBuf := rest }

/-- Interleaved executions: reflexive-transitive closure of `Step`. -/
def Reach : WState → WState → Prop := Relation.ReflTransGen Step

/-- Initial state: the worker has entered the `task.cancel != nil` branch
holding a fresh timed task whose function will return `fnOut`. -/
def initTimed (fnOut : FnResult) : WState :=
  { wpc := WPc.sendTasks, hpc := HPc.recvTask, fnOut := fnOut,
    errBuf := [], errSends := 0, errChBuf := [], doneClosed := false,
    ctxDone := false, tasksBuf := 0, cancelCalls := 0 }

/-- The state reached when the user function completes before the deadline:
the helper has published the outcome and closed `done`, and the worker sits
at `err = <-errCh` (line 318) with `errCh` empty. -/
def stuckState (fnOut : FnResult) : WState :=
  { wpc := WPc.recvErrCh, hpc := HPc.recvTask, fnOut := fnOut,
    errBuf := [fnOut], errSends := 1, errChBuf := [], doneClosed := true,
    ctxDone := false, tasksBuf := 0, cancelCalls := 0 }

/-- The state reached by the double-publication interleaving: deadline first,
worker publishes `ErrTimeout` and cancels, the submitter drains it, then the
helper's select (both its cases ready) takes the send branch. -/
def doublePublishState (fnOut : FnResult) : WState :=
  { wpc := WPc.awaitNext, hpc := HPc.closeDone, fnOut := fnOut,
    errBuf := [fnOut], errSends := 2, errChBuf := [], doneClosed := false,
    ctxDone := true, tasksBuf := 0, cancelCalls := 1 }

end TimedTask

/-- The plain iteration body for a task without `cancel` (line 309):
`task.Err <- task.task()`, a blocking send on the capacity-1 result buffer
(`none` models blocking on a full buffer; the guard of line 307 has ruled
out a nil fn). Returns the updated `Err` channel. -/
def runPlainTask (t : PoolTask) : Option Chan :=
  match t.task with
  | some r => if t.Err.buf = [] then some { t.Err with buf := [r] } else none
  | none => none

/-- A sample plain task (fn returns nil) for concrete instantiations. -/
def sampleTask : PoolTask :=
  { task := some none, Err := {}, hasDone := false, ctx := Ctx.background,
    hasCancel := false }

/-- A second sample task (fn returns a user error). -/
def sampleTask2 : PoolTask :=
  { task := some (some (GoErr.user 1)), Err := {}, hasDone := false,
    ctx := Ctx.background, hasCancel := false }

/-! ## Theorems -/

/-- Shutdown drain (lines 383-389) hands out exactly the waiting queue,
front first. -/
theorem runQueuedTasks_eq_map (q : List PoolTask) :
    runQueuedTasks q = q.map ShutdownEvent.handedQueuedTask := by
  induction q with
  | nil => rfl
  | cons t rest ih => simp [runQueuedTasks, ih]

/-- C8: a `Submit` or `SubmitWait` call with nil `fn` never builds a task or
touches `taskQueue` (so the dispatcher state is unchanged); `Submit` returns
an already-closed empty channel and `SubmitWait` returns the nil (success)
outcome immediately. -/
theorem nil_fn_submit_noop (ctx : Ctx) (timeout : Nat) :
    Submit ctx none timeout =
      Except.ok { sentTask := none, returned := { buf := [], closed := true } } ∧
    SubmitWait ctx none timeout =
      Except.ok (none, SubmitWaitRet.immediate none) :=
  ⟨rfl, rfl⟩

/-- C10: over any stream of held tasks, the worker exits its loop exactly
when some held task has a nil fn (the line 307 guard); recognition is
independent of the held task's `ctx` field, and the guard itself depends
only on `fn`. -/
theorem worker_exits_iff_nil_fn (t : PoolTask) (inc : List PoolTask) (c : Ctx) :
    ((workerRun t inc).2 = WorkerEnd.exited ↔ ∃ x ∈ t :: inc, x.task = none) ∧
    (workerRun { t with ctx := c } inc).2 = (workerRun t inc).2 ∧
    (workerContinues t = false ↔ t.task = none) := by
  refine ⟨?_, ?_, ?_⟩
  · induction inc generalizing t with
    | nil => cases h : t.task <;> simp [workerRun, h]
    | cons t2 rest ih => cases h : t.task <;> simp [workerRun, h, ih]
  · cases inc with
    | nil => cases h : t.task <;> simp [workerRun, h]
    | cons t2 rest => cases h : t.task <;> simp [workerRun, h]
  · cases h : t.task <;> simp [workerContinues, h]

/-- C9: a task built by `NewTask` carries `cancel` exactly when it carries
`done` (both present iff a positive timeout was given), the worker takes the
timeout-supervision branch exactly when `cancel` is present (line 308), and
hence every task handed to the helper carries a `done` channel. -/
theorem cancel_done_coupled (ctx : Ctx) (fn : Fn) (tos : List Nat) (t : PoolTask)
    (h : NewTask ctx fn tos = Except.ok t) :
    t.hasCancel = t.hasDone ∧
    t.hasCancel = hasPositiveTimeout tos ∧
    (t.task.isSome = true → workerSendsToHelper t = t.hasCancel) ∧
    (workerSendsToHelper t = true → t.hasDone = true) := by
  cases tos with
  | nil =>
    simp only [NewTask] at h
    cases h
    simp [hasPositiveTimeout, workerSendsToHelper]
  | cons t0 rest =>
    simp only [NewTask] at h
    by_cases h0 : 0 < t0
    · simp only [if_pos h0] at h
      cases hw : ctx.withTimeout t0 with
      | none => rw [hw] at h; cases h
      | some c2 =>
        rw [hw] at h
        cases h
        simp [hasPositiveTimeout, workerSendsToHelper, h0]
    · simp only [if_neg h0] at h
      cases h
      simp [hasPositiveTimeout, workerSendsToHelper, Nat.not_lt.mp h0]

/-- C9 witness at a concrete input. -/
theorem cancel_done_coupled_witness :
    (NewTask Ctx.background (some none) [5] = Except.ok
      { task := some none, Err := {}, hasDone := true,
        ctx := Ctx.withDeadline Ctx.background 5, hasCancel := true }) ∧
    ({ task := some none, Err := {}, hasDone := true,
       ctx := Ctx.withDeadline Ctx.background 5,
       hasCancel := true : PoolTask }.hasCancel =
      { task := some none, Err := {}, hasDone := true,
        ctx := Ctx.withDeadline Ctx.background 5,
        hasCancel := true : PoolTask }.hasDone) :=
  ⟨rfl, (cancel_done_coupled Ctx.background (some none) [5] _ rfl).1⟩

/-- C4: in direct mode an arriving task is first offered to an idle worker
with a non-blocking send; failing that, a worker is spawned when below
`maxWorkers` (incrementing the count); otherwise the task goes to the back
of the waiting queue and the atomic length mirror is updated — in
particular, at `workerCount = maxWorkers` with no ready worker the task is
queued, never dropped. -/
theorem dispatch_direct_mode_policy (s : DispatchState) (t : PoolTask)
    (workerReady : Bool) (hq : s.waitingQueue = []) :
    (workerReady = true →
      dispatchDirectTask s t workerReady =
        ({ s with idle := false }, DispatchAction.handedToWorker t)) ∧
    (workerReady = false → s.workerCount < s.maxWorkers →
      dispatchDirectTask s t workerReady =
        ({ s with workerCount := s.workerCount + 1, idle := false },
          DispatchAction.spawnedWorker t)) ∧
    (workerReady = false → ¬ s.workerCount < s.maxWorkers →
      (dispatchDirectTask s t workerReady).1.waitingQueue = s.waitingQueue ++ [t] ∧
      (dispatchDirectTask s t workerReady).1.waiting =
        (s.waitingQueue ++ [t]).length ∧
      (dispatchDirectTask s t workerReady).2 = DispatchAction.enqueued t) ∧
    (workerReady = false → s.workerCount = s.maxWorkers →
      (dispatchDirectTask s t workerReady).2 = DispatchAction.enqueued t ∧
      (dispatchDirectTask s t workerReady).1.waitingQueue = [t]) := by
  refine ⟨?_, ?_, ?_, ?_⟩
  · intro hw; simp [dispatchDirectTask, hw]
  · intro hw hlt; simp [dispatchDirectTask, hw, hlt]
  · intro hw hge; simp [dispatchDirectTask, hw, hge]
  · intro hw heq
    have hge : ¬ s.workerCount < s.maxWorkers := by omega
    simp [dispatchDirectTask, hw, hge, hq]

/-- C4 witness: a saturated pool (`workerCount = maxWorkers = 2`, no ready
worker, empty waiting queue) queues the arriving task at the back. -/
theorem dispatch_direct_mode_policy_witness :
    (dispatchDirectTask ⟨2, 2, [], 0, false⟩ sampleTask false).2 =
      DispatchAction.enqueued sampleTask ∧
    (dispatchDirectTask ⟨2, 2, [], 0, false⟩ sampleTask false).1.waitingQueue =
      [sampleTask] :=
  (dispatch_direct_mode_policy ⟨2, 2, [], 0, false⟩ sampleTask false rfl).2.2.2
    rfl rfl

/-- The kill loop (lines 247-250) is `workerCount` repetitions of a pill send
followed by a count decrement. -/
theorem killRemainingWorkers_eq_join (n : Nat) :
    killRemainingWorkers n =
      (List.replicate n [ShutdownEvent.sentKillPill,
        ShutdownEvent.decrementedWorkerCount]).flatten := by
  induction n with
  | zero => rfl
  | succ n ih => simp [killRemainingWorkers, List.replicate_succ, ih]

/-- The kill loop sends exactly one pill per remaining worker. -/
theorem killRemainingWorkers_count (n : Nat) :
    (killRemainingWorkers n).count ShutdownEvent.sentKillPill = n := by
  induction n with
  | zero => rfl
  | succ n ih => simp [killRemainingWorkers, List.count_cons, ih]

/-- C5: once `taskQueue` is observed closed, the dispatcher first (when the
`wait` flag is set) hands the whole waiting queue to `workerQueue` in FIFO
order, then sends exactly one kill pill per remaining live worker with a
count decrement after each accepted send, then waits for all workers, and
closes `stoppedChan` as the very last act. -/
theorem dispatcher_shutdown_order (wait : Bool) (q : List PoolTask) (wc : Nat) :
    shutdownTrace wait q wc =
      (if wait then q.map ShutdownEvent.handedQueuedTask else []) ++
        killRemainingWorkers wc ++
        [ShutdownEvent.waitedForWorkers, ShutdownEvent.stoppedTimer,
         ShutdownEvent.closedStoppedChan] ∧
    (shutdownTrace wait q wc).count ShutdownEvent.sentKillPill = wc ∧
    killRemainingWorkers wc =
      (List.replicate wc [ShutdownEvent.sentKillPill,
        ShutdownEvent.decrementedWorkerCount]).flatten ∧
    (shutdownTrace wait q wc).getLast? = some ShutdownEvent.closedStoppedChan := by
  refine ⟨?_, ?_, killRemainingWorkers_eq_join wc, ?_⟩
  · unfold shutdownTrace
    rw [runQueuedTasks_eq_map]
  · unfold shutdownTrace
    rw [runQueuedTasks_eq_map]
    simp [List.count_append, killRemainingWorkers_count wc, List.count_eq_zero,
      List.mem_map]
  · unfold shutdownTrace
    rw [show [ShutdownEvent.waitedForWorkers, ShutdownEvent.stoppedTimer,
          ShutdownEvent.closedStoppedChan] =
        [ShutdownEvent.waitedForWorkers, ShutdownEvent.stoppedTimer] ++
          [ShutdownEvent.closedStoppedChan] from rfl]
    rw [← List.append_assoc]
    exact List.getLast?_concat _

/-- C6: on an idle-timer tick the dispatcher sets the idle flag and re-arms
the timer in every case, and decrements `workerCount` exactly when the pool
was idle, a worker was alive, and the non-blocking pill send succeeded; a
tick whose pill send failed never decreases `workerCount`, and the waiting
queue is untouched. -/
theorem idle_tick_policy (s : DispatchState) (workerReady : Bool) :
    (dispatchIdleTick s workerReady).state.idle = true ∧
    (dispatchIdleTick s workerReady).timerRearmed = true ∧
    (dispatchIdleTick s workerReady).pillSent =
      (s.idle && decide (0 < s.workerCount) && killIdleWorker workerReady) ∧
    (dispatchIdleTick s workerReady).state.workerCount =
      (if s.idle && decide (0 < s.workerCount) && killIdleWorker workerReady
        then s.workerCount - 1 else s.workerCount) ∧
    (dispatchIdleTick s workerReady).state.waitingQueue = s.waitingQueue ∧
    (killIdleWorker workerReady = false →
      (dispatchIdleTick s workerReady).state.workerCount = s.workerCount) := by
  unfold dispatchIdleTick killIdleWorker
  cases hi : s.idle <;> cases workerReady <;>
    by_cases h0 : 0 < s.workerCount <;> simp [h0]

/-- C6 witness: an idle tick with one live worker whose pill send fails does
not decrement the worker count. -/
theorem idle_tick_policy_witness :
    (dispatchIdleTick ⟨2, 1, [], 0, true⟩ false).state.workerCount = 1 :=
  (idle_tick_policy ⟨2, 1, [], 0, true⟩ false).2.2.2.2.2 rfl

/-- Queued-mode FIFO invariant: the tasks handed out, followed by what is
still queued, are exactly the initial queue followed by the arrivals in
submission order. -/
theorem runQueueOps_fifo_aux (ops : List QueueOp) :
    ∀ q qf handed, runQueueOps q ops = some (qf, handed) →
      handed ++ qf = q ++ arrivals ops := by
  induction ops with
  | nil =>
    intro q qf handed h
    simp only [runQueueOps, Option.some.injEq, Prod.mk.injEq] at h
    rw [← h.1, ← h.2]
    simp [arrivals]
  | cons op ops ih =>
    intro q qf handed h
    cases op with
    | arrive t =>
      simp only [runQueueOps, processWaitingQueue] at h
      cases hr : runQueueOps (q ++ [t]) ops with
      | none => rw [hr] at h; cases h
      | some pr =>
        obtain ⟨qf2, rest⟩ := pr
        rw [hr] at h
        simp only [Option.some.injEq, Prod.mk.injEq] at h
        rw [← h.1, ← h.2]
        have hih := ih (q ++ [t]) qf2 rest hr
        simp only [Option.toList, List.nil_append]
        rw [hih]
        simp [arrivals]
    | handoff =>
      cases q with
      | nil => simp [runQueueOps, processWaitingQueue] at h
      | cons front restq =>
        simp only [runQueueOps, processWaitingQueue] at h
        cases hr : runQueueOps restq ops with
        | none => rw [hr] at h; cases h
        | some pr =>
          obtain ⟨qf2, rest⟩ := pr
          rw [hr] at h
          simp only [Option.some.injEq, Prod.mk.injEq] at h
          have hih := ih restq qf2 rest hr
          have hfr : (some front).toList ++ rest ++ qf2 = front :: (rest ++ qf2) := by
            simp
          rw [← h.1, ← h.2, hfr, hih]
          simp [arrivals]

/-- C7: tasks enter the waiting queue only at the back and leave only from
the front, so they reach workers in exactly submission order, both in
queued-mode operation and in the shutdown drain. -/
theorem waiting_queue_fifo (q qf handed : List PoolTask) (ops : List QueueOp)
    (h : runQueueOps q ops = some (qf, handed)) :
    handed ++ qf = q ++ arrivals ops ∧
    runQueuedTasks q = q.map ShutdownEvent.handedQueuedTask :=
  ⟨runQueueOps_fifo_aux ops q qf handed h, runQueuedTasks_eq_map q⟩

/-- C7 witness: from a queue holding one task, an arrival followed by two
handoffs hands out both tasks in submission order. -/
theorem waiting_queue_fifo_witness :
    [sampleTask, sampleTask2] ++ ([] : List PoolTask) =
      [sampleTask] ++
        arrivals [QueueOp.arrive sampleTask2, QueueOp.handoff, QueueOp.handoff] ∧
    runQueuedTasks [sampleTask] =
      [sampleTask].map ShutdownEvent.handedQueuedTask :=
  waiting_queue_fifo [sampleTask] [] [sampleTask, sampleTask2]
    [QueueOp.arrive sampleTask2, QueueOp.handoff, QueueOp.handoff] rfl

/-- C3 counterexample: a task built from a nil context with a positive
timeout panics in `context.WithTimeout` (nil parent) instead of behaving
like the ambient never-cancelling scope. -/
theorem nil_ctx_timeout_panics :
    NewTask Ctx.nilCtx (some none) [5] =
      Except.error "panic: cannot create context from nil parent" := rfl

/-- C3 (amended): with no positive timeout, a nil context is carried through
and the task is identical to one built from `context.Background()` in every
behaviourally relevant field (fn, result channel, done/cancel, helper
routing, plain-path execution, which never consults ctx); with a positive
timeout, `NewTask` from the nil parent panics while the same call from
`Background` succeeds. -/
theorem nil_ctx_behaviour (fn : Fn) (tos : List Nat) (d : Nat)
    (hno : hasPositiveTimeout tos = false) (hd : 0 < d) :
    NewTask Ctx.nilCtx fn tos =
      Except.ok { task := fn, Err := {}, hasDone := false, ctx := Ctx.nilCtx,
                  hasCancel := false } ∧
    (∀ t1 t2, NewTask Ctx.nilCtx fn tos = Except.ok t1 →
      NewTask Ctx.background fn tos = Except.ok t2 →
      t1.task = t2.task ∧ t1.Err = t2.Err ∧ t1.hasDone = t2.hasDone ∧
      t1.hasCancel = t2.hasCancel ∧
      workerSendsToHelper t1 = workerSendsToHelper t2 ∧
      runPlainTask t1 = runPlainTask t2) ∧
    NewTask Ctx.nilCtx fn [d] =
      Except.error "panic: cannot create context from nil parent" ∧
    NewTask Ctx.background fn [d] =
      Except.ok { task := fn, Err := {}, hasDone := true,
                  ctx := Ctx.withDeadline Ctx.background d, hasCancel := true } := by
  have hplain : ∀ c, NewTask c fn tos =
      Except.ok { task := fn, Err := {}, hasDone := false, ctx := c,
                  hasCancel := false } := by
    intro c
    cases tos with
    | nil => rfl
    | cons t0 rest =>
      simp only [hasPositiveTimeout, decide_eq_false_iff_not] at hno
      simp [NewTask, hno]
  refine ⟨hplain Ctx.nilCtx, ?_, ?_, ?_⟩
  · intro t1 t2 e1 e2
    rw [hplain Ctx.nilCtx] at e1
    rw [hplain Ctx.background] at e2
    injection e1 with e1
    injection e2 with e2
    subst e1
    subst e2
    exact ⟨rfl, rfl, rfl, rfl, rfl, rfl⟩
  · simp [NewTask, hd, Ctx.withTimeout]
  · simp [NewTask, hd, Ctx.withTimeout]

/-- C3 amended witness: timeout 0 from a nil context succeeds; timeout 1
from a nil context panics. -/
theorem nil_ctx_behaviour_witness :
    NewTask Ctx.nilCtx (some none) [0] =
      Except.ok { task := some none, Err := {}, hasDone := false,
                  ctx := Ctx.nilCtx, hasCancel := false } ∧
    NewTask Ctx.nilCtx (some none) [1] =
      Except.error "panic: cannot create context from nil parent" :=
  ⟨(nil_ctx_behaviour (some none) [0] 1 rfl (by decide)).1,
   (nil_ctx_behaviour (some none) [0] 1 rfl (by decide)).2.2.1⟩

/-- No step of the worker/helper system ever sends on `errCh` or, once the
worker sits at `err = <-errCh` with `errCh` empty, changes the worker's
position or calls `cancel`: `errCh` (line 288) is written nowhere in the
source, so the receive of line 318 can never fire. -/
theorem stuck_step (s s2 : TimedTask.WState) (h : TimedTask.Step s s2)
    (h1 : s.wpc = TimedTask.WPc.recvErrCh) (h2 : s.errChBuf = [])
    (h3 : s.cancelCalls = 0) :
    s2.wpc = TimedTask.WPc.recvErrCh ∧ s2.errChBuf = [] ∧ s2.cancelCalls = 0 := by
  cases h <;> simp_all

/-- Every state reachable from the stuck state keeps the worker at
`err = <-errCh` with no `cancel` call. -/
theorem stuck_forever (fnOut : FnResult) (s2 : TimedTask.WState)
    (h : TimedTask.Reach (TimedTask.stuckState fnOut) s2) :
    s2.wpc = TimedTask.WPc.recvErrCh ∧ s2.errChBuf = [] ∧ s2.cancelCalls = 0 := by
  induction h with
  | refl => exact ⟨rfl, rfl, rfl⟩
  | tail hr hs ih => exact stuck_step _ _ hs ih.1 ih.2.1 ih.2.2

/-- The fast-function schedule: the helper receives the task, runs the
function to completion before the deadline, publishes its outcome and
closes `done`; the worker's race select then takes the `done` branch. -/
theorem reach_stuck (fnOut : FnResult) :
    TimedTask.Reach (TimedTask.initTimed fnOut) (TimedTask.stuckState fnOut) := by
  refine Relation.ReflTransGen.head
    (TimedTask.Step.wSendTasks (TimedTask.initTimed fnOut) rfl rfl) ?_
  refine Relation.ReflTransGen.head (TimedTask.Step.hRecvTask _ rfl rfl) ?_
  refine Relation.ReflTransGen.head (TimedTask.Step.hFnReturns _ rfl) ?_
  refine Relation.ReflTransGen.head (TimedTask.Step.hSelectSend _ rfl rfl) ?_
  refine Relation.ReflTransGen.head (TimedTask.Step.hCloseDone _ rfl) ?_
  refine Relation.ReflTransGen.head (TimedTask.Step.wRaceDone _ rfl rfl) ?_
  exact Relation.ReflTransGen.refl

/-- C1 (refuted, code bug): for a timed task whose function completes before
the deadline the system reaches a state where the outcome has been
published on the result channel (`errBuf = [fnOut]`, one send) but the
worker sits at `err = <-errCh` (line 318); from there, in every reachable
future state the worker is still at that receive and `cancel` has never
been invoked — `errCh` is never written, so the worker never publishes,
never cancels, and never returns to `workerQueue`. -/
theorem timed_fast_fn_worker_stuck (fnOut : FnResult) :
    TimedTask.Reach (TimedTask.initTimed fnOut) (TimedTask.stuckState fnOut) ∧
    (TimedTask.stuckState fnOut).errBuf = [fnOut] ∧
    (TimedTask.stuckState fnOut).errSends = 1 ∧
    ∀ s2, TimedTask.Reach (TimedTask.stuckState fnOut) s2 →
      s2.wpc = TimedTask.WPc.recvErrCh ∧ s2.cancelCalls = 0 :=
  ⟨reach_stuck fnOut, rfl, rfl,
    fun s2 h => ⟨(stuck_forever fnOut s2 h).1, (stuck_forever fnOut s2 h).2.2⟩⟩

/-- C1 witness: the stuck state itself (reached via the empty continuation)
has the worker at the `errCh` receive with no `cancel` call. -/
theorem timed_fast_fn_worker_stuck_witness :
    (TimedTask.stuckState none).wpc = TimedTask.WPc.recvErrCh ∧
    (TimedTask.stuckState none).cancelCalls = 0 :=
  (timed_fast_fn_worker_stuck none).2.2.2 (TimedTask.stuckState none)
    Relation.ReflTransGen.refl

/-- C2 (refuted, code bug): an interleaving in which the deadline fires
first, the worker publishes `ErrTimeout` and cancels, the submitter drains
the result channel, and the helper's select (both of its cases then ready)
takes the send branch, lands a second value on the task's result channel:
`errSends = 2`. -/
theorem double_publish_on_result_channel :
    TimedTask.Reach (TimedTask.initTimed none) (TimedTask.doublePublishState none) ∧
    (TimedTask.doublePublishState none).errSends = 2 := by
  constructor
  · refine Relation.ReflTransGen.head
      (TimedTask.Step.wSendTasks (TimedTask.initTimed none) rfl rfl) ?_
    refine Relation.ReflTransGen.head (TimedTask.Step.hRecvTask _ rfl rfl) ?_
    refine Relation.ReflTransGen.head (TimedTask.Step.timerFires _ rfl) ?_
    refine Relation.ReflTransGen.head (TimedTask.Step.wRaceCtx _ rfl rfl) ?_
    refine Relation.ReflTransGen.head
      (TimedTask.Step.wPublish _ (some GoErr.timeout) rfl rfl) ?_
    refine Relation.ReflTransGen.head (TimedTask.Step.wCancel _ rfl) ?_
    refine Relation.ReflTransGen.head
      (TimedTask.Step.submitterRecv _ (some GoErr.timeout) [] rfl) ?_
    refine Relation.ReflTransGen.head (TimedTask.Step.hFnReturns _ rfl) ?_
    refine Relation.ReflTransGen.head (TimedTask.Step.hSelectSend _ rfl rfl) ?_
    exact Relation.ReflTransGen.refl
  · rfl

end Workerpool
